import Mathlib

/-!
# Verification of the `first_top` ranking tool

A shallow embedding of `src/main.rs` of the `first_top` repository.

Time is modelled as microseconds since the Unix epoch, a plain `Int`; a chrono
`DateTime<Utc>` is such an instant, and a `DateTime<Tz>` for a fixed-offset
timezone is the instant shifted by the offset.  Civil (year, month, day)
dates are recovered with the standard days-to-civil algorithm, matching
chrono's proleptic Gregorian calendar.  `Int.ediv`/`Int.emod` (Euclidean
division, remainder in `[0, d)` for positive `d`) coincide with floor
division for positive divisors, which is the semantics chrono uses for
splitting an instant into days and time of day.
-/

namespace FirstTop

def usPerSec : Int := 1000000
def usPerMin : Int := 60000000
def usPerHour : Int := 3600000000
def usPerDay : Int := 86400000000

/-- chrono's `NaiveDate`: a civil calendar date (proleptic Gregorian). -/
structure NaiveDate where
  year : Int
  month : Nat
  day : Nat
deriving DecidableEq, Repr

/-- Days-to-civil conversion (proleptic Gregorian), the calendar chrono
implements.  `z` is the number of days since 1970-01-01. -/
def civilFromDays (z0 : Int) : NaiveDate :=
  let z := z0 + 719468
  let era : Int := z / 146097
  let doe : Nat := (z - era * 146097).toNat
  let yoe : Nat := (doe - doe / 1460 + doe / 36524 - doe / 146096) / 365
  let y : Int := (yoe : Int) + era * 400
  let doy : Nat := doe - (365 * yoe + yoe / 4 - yoe / 100)
  let mp : Nat := (5 * doy + 2) / 153
  let d : Nat := doy - (153 * mp + 2) / 5 + 1
  let m : Nat := if mp < 10 then mp + 3 else mp - 9
  ⟨if m ≤ 2 then y + 1 else y, m, d⟩

/-- Civil-to-days conversion, inverse of `civilFromDays` on valid dates. -/
def daysFromCivil (y0 : Int) (m d : Nat) : Int :=
  let y : Int := if m ≤ 2 then y0 - 1 else y0
  let era : Int := y / 400
  let yoe : Nat := (y - era * 400).toNat
  let mp : Nat := if 2 < m then m - 3 else m + 9
  let doy : Nat := (153 * mp + 2) / 5 + d - 1
  let doe : Nat := yoe * 365 + yoe / 4 - yoe / 100 + doy
  era * 146097 + (doe : Int) - 719468

/-- The calendar date (UTC) an instant falls on: chrono's `date_naive`
on a `DateTime<Utc>`. -/
def dateOf (t : Int) : NaiveDate := civilFromDays (t / usPerDay)

/-- chrono's `Timelike::hour` of a UTC instant. -/
def hourOf (t : Int) : Nat := (t % usPerDay).toNat / 3600000000

/-- chrono's `Datelike::weekday`, as `num_days_from_monday` (Mon = 0 … Sun = 6).
1970-01-01 (day number 0) was a Thursday, index 3. -/
def weekdayIdx (t : Int) : Nat := ((t / usPerDay + 3) % 7).toNat

/-- Midnight (00:00:00.000000) of the UTC calendar day `t` falls on. -/
def utcMidnight (t : Int) : Int := usPerDay * (t / usPerDay)

/-- Modelled from the spec: timezone resolution (`chrono_tz`, external to
`src/`).  §3 requires a timezone string to "be resolvable to a fixed
UTC-offset rule for the relevant date; invalid values are a per-record
error".  We model a small table of IANA names with fixed offsets in
seconds; unknown names fail to parse. -/
def parseTz (s : String) : Option Int :=
  if s = "UTC" then some 0
  else if s = "Europe/Lisbon" then some 0
  else if s = "Europe/Paris" then some 3600
  else if s = "America/New_York" then some (-18000)
  else if s = "Asia/Tokyo" then some 32400
  else none

/-- Modelled from the spec: the external pseudo-random draw
(`StdRng::seed_from_u64(seed).random_range(lo..hi)` from the `rand` crate,
not part of `src/`).  §4.2 fixes only that it is a deterministic pure
function of the seed whose output lies in the half-open range `lo..hi`
("a pure function of its seed with no hidden global generator state");
the exact value drawn is a compatibility constant we leave abstract as
`lo + seed % (hi - lo)`. -/
def stdRngRange (seed lo hi : Nat) : Nat :=
  if lo < hi then lo + seed % (hi - lo) else lo

/- Global constants of `main.rs` (lines 15-18). -/
def MAX_RESULTS : Nat := 10
def CUTOFF_US : Int := 1000000
def RAND_OPEN_HOUR_LO : Nat := 5
def RAND_OPEN_HOUR_HI : Nat := 12
def RAND_OPEN_MIN_LO : Nat := 0
def RAND_OPEN_MIN_HI : Nat := 59

/-- `struct FirstResult` (main.rs lines 20-26): `datetime` is the parsed
`DateTime<Utc>` as an epoch instant; `timezone` stays a string, resolved
on use exactly as the code does. -/
structure FirstResult where
  nick : String
  channel : String
  datetime : Int
  timezone : String
deriving DecidableEq, Repr

/-- `enum Period` (main.rs lines 48-58). -/
inductive Period where
  | Day | Daily | Week | Weekly | Month | Monthly | Year | Yearly | Unknown
deriving DecidableEq, Repr

/-- The `Period::Week` weekday match (main.rs lines 125-133): number of days
to subtract, from the weekday index (Mon = 0 … Sun = 6). -/
def weekDays (i : Nat) : Nat :=
  match i with
  | 0 => 1
  | 1 => 2
  | 2 => 3
  | 3 => 4
  | 4 => 5
  | 5 => 6
  | _ => 7

/-- The reference instant of the `Period::Year` branch (main.rs lines
135-143): `"{year-1}-12-31 11:59 +0000"` parsed with `%Y-%m-%d %H:%M %z`.
The format always parses for the years at issue, so `unwrap_or_default`
never fires. -/
def prevYearRef (now : Int) : Int :=
  daysFromCivil ((dateOf now).year - 1) 12 31 * usPerDay + 11 * usPerHour + 59 * usPerMin

/-- `fn start_date` (main.rs lines 114-150), with `Utc::now()` made an
explicit argument `now`.  `checked_sub_signed`/`checked_sub_days` cannot
fail in the unbounded `Int` model (they only fail at chrono's range
limits), so the `unwrap_or_default` calls vanish.  On `DateTime<Utc>`,
subtracting `Days::new(n)` is subtracting `n * 86400` seconds.
`TimeDelta::num_days` truncates toward zero, and `now` is after the
reference instant in every reachable case, so `Int.ediv` (which agrees
with truncation for nonnegative dividends) models it. -/
def start_date (now : Int) (period : Period) : Int :=
  match period with
  | .Daily => now - 1 * usPerDay
  | .Day => now - (hourOf now : Int) * usPerHour
  | .Month => now - ((dateOf now).day : Int) * usPerDay
  | .Monthly => now - 30 * usPerDay
  | .Week => now - (weekDays (weekdayIdx now) : Int) * usPerDay
  | .Weekly => now - 7 * usPerDay
  | .Year => now - (now - prevYearRef now) / usPerDay * usPerDay
  | .Yearly => now - 365 * usPerDay
  | .Unknown => 0

/-- The opening hour the delta calculator reconstructs: a fresh generator
seeded with the day-of-month, drawn over `RAND_OPEN_HOUR` (main.rs lines
216-218). -/
def open_hour (month_day : Nat) : Nat :=
  stdRngRange month_day RAND_OPEN_HOUR_LO RAND_OPEN_HOUR_HI

/-- The opening minute: an independent generator, seeded with the same
day-of-month, drawn over `RAND_OPEN_MIN` (main.rs lines 220-222). -/
def open_min (month_day : Nat) : Nat :=
  stdRngRange month_day RAND_OPEN_MIN_LO RAND_OPEN_MIN_HI

/-- The (hour, minute) opening pair `delta` derives for a target date: both
draws are seeded with `day.day()`, the day-of-month, and nothing else. -/
def openingFor (day : NaiveDate) : Nat × Nat := (open_hour day.day, open_min day.day)

/-- `fn delta` (main.rs 209-245).  The local player time is the UTC instant
shifted by the record's fixed timezone offset; the local opening time is
the same local calendar day at `open_hour:open_min:00.000000` (the
`with_hour/with_minute/with_second(0)/with_nanosecond(0)` chain), and the
result is their signed difference in microseconds.  In the fixed-offset,
unbounded-`Int` model the `with_*` chain ("Bad time format") and
`num_microseconds` overflow ("Could not get microseconds") branches cannot
fire, leaving "Bad timezone" as the only error path. -/
def delta (day : NaiveDate) (r : FirstResult) : Except String (Int × String) :=
  match parseTz r.timezone with
  | none => .error "Bad timezone"
  | some off =>
    let local_player_time : Int := r.datetime + off * usPerSec
    let o := openingFor day
    let local_opening_time : Int :=
      usPerDay * (local_player_time / usPerDay)
        + (o.1 : Int) * usPerHour + (o.2 : Int) * usPerMin
    .ok (local_player_time - local_opening_time, r.nick)

/-- The offset a record's timezone resolves to; only consulted after the
parse is known to succeed, so the `0` default is never reached. -/
def tzOffset (r : FirstResult) : Int := (parseTz r.timezone).getD 0

/-- A record's instant in its own local timezone. -/
def localMicros (r : FirstResult) : Int := r.datetime + tzOffset r * usPerSec

/-- The `chunk_by` key of `rank` (main.rs 168-175):
`r.datetime.with_timezone(&tz).date_naive()`. -/
def localDate (r : FirstResult) : NaiveDate := dateOf (localMicros r)

/-- itertools `chunk_by`: adjacent runs of equal keys. -/
def chunkBy {α β : Type} [DecidableEq β] (key : α → β) : List α → List (β × List α)
  | [] => []
  | x :: xs =>
    match chunkBy key xs with
    | [] => [(key x, [x])]
    | (k, g) :: rest =>
      if key x = k then (k, x :: g) :: rest else (key x, [x]) :: (k, g) :: rest

/-- One element of rank's output vector: `(NaiveDate, Vec<(i64, String)>)`. -/
abbrev Entry := NaiveDate × List (Int × String)

/-- The delta rank reads from an entry via `r.1[0].0`; the indexing would
panic on an empty inner list, but every entry rank builds has a singleton
inner list (proved below), so the `0` default is never reached. -/
def entryDelta (e : Entry) : Int :=
  match e.2 with
  | (d, _) :: _ => d
  | [] => 0

/-- The nick rank reads from an entry via `r.1[0].1.clone()`; as with
`entryDelta`, the default is never reached on rank's own entries. -/
def entryNick (e : Entry) : String :=
  match e.2 with
  | (_, n) :: _ => n
  | [] => ""

/-- The comparator of the inner `sorted_by` (main.rs 187): ascending delta. -/
def deltaLe (a b : Int × String) : Prop := a.1 ≤ b.1

instance : DecidableRel deltaLe := fun a b => Int.decLe a.1 b.1

instance : IsTotal (Int × String) deltaLe := ⟨fun a b => Int.le_total a.1 b.1⟩

instance : IsTrans (Int × String) deltaLe := ⟨fun _ _ _ h h' => le_trans h h'⟩

/-- The comparator of the outer `sorted_by` (main.rs 199): ascending best
delta `a.1[0].0`. -/
def entryLe (a b : Entry) : Prop := entryDelta a ≤ entryDelta b

instance : DecidableRel entryLe := fun a b => Int.decLe (entryDelta a) (entryDelta b)

instance : IsTotal Entry entryLe := ⟨fun a b => Int.le_total (entryDelta a) (entryDelta b)⟩

instance : IsTrans Entry entryLe := ⟨fun _ _ _ h h' => le_trans h h'⟩

/-- The body of rank's outer `filter_map` for one day group (main.rs
182-198): compute each member's delta, drop the errors, stable-sort
ascending, take one (the group minimum), and keep the day only when that
minimum is in `(0, CUTOFF_US]`.  itertools `sorted_by` is a stable sort,
as is `List.insertionSort`, so the two agree element for element. -/
def dayEntry (day : NaiveDate) (group : List FirstResult) : Option Entry :=
  match ((group.filterMap fun r => (delta day r).toOption).insertionSort deltaLe).take 1 with
  | (micros, nick) :: rest =>
    if 0 < micros ∧ micros ≤ CUTOFF_US then some (day, (micros, nick) :: rest) else none
  | [] => none

/-- itertools `unique_by`, with its set of already-seen keys explicit. -/
def uniqueByAux {α β : Type} [DecidableEq β] (key : α → β) (seen : List β) :
    List α → List α
  | [] => []
  | x :: xs =>
    if key x ∈ seen then uniqueByAux key seen xs
    else x :: uniqueByAux key (key x :: seen) xs

/-- itertools `unique_by`: keep only the first element seen for each key,
preserving order. -/
def uniqueBy {α β : Type} [DecidableEq β] (key : α → β) (l : List α) : List α :=
  uniqueByAux key [] l

/-- The qualifying day entries, one per day group, before the global sort
(main.rs 180-198). -/
def rankList (first_results : List FirstResult) : List Entry :=
  (chunkBy localDate first_results).filterMap fun g => dayEntry g.1 g.2

/-- The tail of rank's pipeline (main.rs 199-202): global stable sort by
best delta, dedup by nick keeping the first (best) occurrence, truncate. -/
def rankOk (first_results : List FirstResult) (max_results : Nat) : List Entry :=
  (uniqueBy entryNick ((rankList first_results).insertionSort entryLe)).take max_results

instance {ε α : Type} [DecidableEq ε] [DecidableEq α] : DecidableEq (Except ε α) := fun x y =>
  match x, y with
  | .error a, .error b =>
    if h : a = b then isTrue (congrArg Except.error h)
    else isFalse fun hc => h (Except.error.inj hc)
  | .ok a, .ok b =>
    if h : a = b then isTrue (congrArg Except.ok h)
    else isFalse fun hc => h (Except.ok.inj hc)
  | .error _, .ok _ => isFalse fun hc => Except.noConfusion hc
  | .ok _, .error _ => isFalse fun hc => Except.noConfusion hc

/-- What a call to the Rust `rank` does: Rust's `Result`, plus a `panicked`
constructor for the `.expect(...)` in the grouping key closure (main.rs
line 172), which aborts the process instead of returning. -/
inductive RankOutcome where
  | panicked (msg : String)
  | result (res : Except String (List Entry))
deriving DecidableEq, Repr

/-- `fn rank` (main.rs 162-206).  The `chunk_by` key closure parses every
record's timezone with `.expect(...)`, so one unparseable timezone panics
the whole batch before `delta`'s own "Bad timezone" handling can run; when
every timezone parses, the function always returns `Ok`. -/
def rank (first_results : List FirstResult) (max_results : Nat) : RankOutcome :=
  if first_results.any fun r => (parseTz r.timezone).isNone then
    .panicked "Timezone should be in Continent/Capital format"
  else
    .result (.ok (rankOk first_results max_results))

/-- Two-digit zero padding, as in chrono's `NaiveDate` Debug output. -/
def pad2 (n : Nat) : String := if n < 10 then "0" ++ toString n else toString n

/-- chrono's `{:?}` rendering of a `NaiveDate`, e.g. `1970-01-02`.  (chrono
zero-pads years below 1000; every date at issue is 1970 or later, where
plain `toString` agrees.) -/
def fmtDate (d : NaiveDate) : String :=
  toString d.year ++ "-" ++ pad2 d.month ++ "-" ++ pad2 d.day

/-- One iteration of main's print loop (main.rs 100-108): index a ranked
entry with `x.get(0)` for nick and delta, divide the delta by 1000
(Rust `i64` division truncates toward zero, `Int.tdiv`), or fail with
"Could not get data" on an empty inner list. -/
def fmtEntry (pos : Nat) (e : Entry) : Except String String :=
  match e.2.head? with
  | some (micros, nick) =>
    let no := pos + 1
    let ds := fmtDate e.1
    let ms := micros.tdiv 1000
    .ok s!"{no}. {ds} {nick} {ms} ms"
  | none => .error "Could not get data"

/-- main's print loop over the ranked entries: the lines printed before any
failure, and the error that the `?` operator propagates, if one fires. -/
def printLoop : Nat → List Entry → List String × Option String
  | _, [] => ([], none)
  | pos, e :: es =>
    match fmtEntry pos e with
    | .error m => ([], some m)
    | .ok line =>
      let rest := printLoop (pos + 1) es
      (line :: rest.1, rest.2)

def HEADER : String := "Top !first results (smallest gaps to the opening time of winners):"

/-- How a run of `main` ends: the lines it printed, and whether it returned
`Ok` (exit status 0), returned an `Err` (nonzero exit status), or panicked
inside `rank`. -/
inductive MainOutcome where
  | panicked (msg : String) (printed : List String)
  | errored (msg : String) (printed : List String)
  | ok (printed : List String)
deriving DecidableEq, Repr

/-- The `span` cutoff main computes from its optional period argument
(main.rs 69-82): keyword dispatch into `start_date`, `DateTime::default()`
(the epoch, instant `0`) when the argument is absent. -/
def mainSpan (periodArg : Option String) (now : Int) : Int :=
  match periodArg with
  | some s =>
    if s = "daily" then start_date now .Daily
    else if s = "day" ∨ s = "today" then start_date now .Day
    else if s = "week" then start_date now .Week
    else if s = "weekly" then start_date now .Weekly
    else if s = "month" then start_date now .Month
    else if s = "monthly" then start_date now .Monthly
    else if s = "year" then start_date now .Year
    else if s = "yearly" then start_date now .Yearly
    else start_date now .Unknown
  | none => 0

/-- The predicate main hands to `Database::select` (main.rs 86-88):
case-insensitive channel match and `datetime >= span`. -/
def mainPred (channel : String) (span : Int) (r : FirstResult) : Bool :=
  r.channel.toLower == channel.toLower && decide (span ≤ r.datetime)

/-- `fn main` (main.rs 60-111), with the process environment made explicit:
`channelArg` and `periodArg` are the two positional CLI arguments
(`args.nth(2)` and the following `args.next()`), `now` is `Utc::now()`,
and `select` is the external record store's `Database::select` on the
`first_results` collection (spec §6) applied to the predicate main builds;
`none` covers both `Ok(None)` and `Err(_)` from the store, which main
treats alike. -/
def mainRun (channelArg periodArg : Option String) (now : Int)
    (select : (FirstResult → Bool) → Option (List FirstResult)) : MainOutcome :=
  match channelArg with
  | none => .errored "A channel must be provided" ["A channel must be provided"]
  | some channel =>
    let span : Int := mainSpan periodArg now
    match select (mainPred channel span) with
    | none => .errored "No results found" ["No results found"]
    | some first_results =>
      match rank first_results MAX_RESULTS with
      | .panicked m => .panicked m []
      | .result (.error e) => .errored e []
      | .result (.ok rk) =>
        let looped := printLoop 0 rk
        match looped.2 with
        | some m => .errored m (HEADER :: looped.1)
        | none => .ok (HEADER :: looped.1)

/-!
### Concrete scenario data

Submissions pinned to January 1970 in UTC, chosen so that their deltas
against the modelled opening times are the values the spec's scenarios
talk about.  Under the modelled draw, 1970-01-15 (day-of-month 15) opens
at 06:15:00 local and 1970-01-16 (day-of-month 16) at 07:16:00 local.
-/

/-- The instant 1970-01-15 06:15:00 UTC (day number 14). -/
def opening0115 : Int := 14 * usPerDay + 6 * usPerHour + 15 * usPerMin

/-- The instant 1970-01-16 07:16:00 UTC (day number 15). -/
def opening0116 : Int := 15 * usPerDay + 7 * usPerHour + 16 * usPerMin

/-- Delta +500,000 µs on 1970-01-15. -/
def submAlice : FirstResult := ⟨"alice", "#c", opening0115 + 500000, "UTC"⟩

/-- Delta +50,000 µs on 1970-01-15: the smallest positive delta of its day. -/
def submBob : FirstResult := ⟨"bob", "#c", opening0115 + 50000, "UTC"⟩

/-- Delta −10,000 µs on 1970-01-15: a guess before the opening. -/
def submCarol : FirstResult := ⟨"carol", "#c", opening0115 - 10000, "UTC"⟩

/-- A record whose timezone string resolves to no timezone. -/
def submBadTz : FirstResult := ⟨"eve", "#c", opening0115 + 60000, "Mars/Olympus"⟩

/-- dave's first qualifying day: delta +20,000 µs on 1970-01-15. -/
def submDave1 : FirstResult := ⟨"dave", "#c", opening0115 + 20000, "UTC"⟩

/-- dave's second qualifying day: delta +80,000 µs on 1970-01-16. -/
def submDave2 : FirstResult := ⟨"dave", "#c", opening0116 + 80000, "UTC"⟩

/-- Delta exactly 1,000,000 µs on 1970-01-15: on the cutoff boundary. -/
def submBoundaryIn : FirstResult := ⟨"xena", "#c", opening0115 + 1000000, "UTC"⟩

/-- Delta 1,000,001 µs on 1970-01-15: one microsecond past the cutoff. -/
def submBoundaryOut : FirstResult := ⟨"yuri", "#c", opening0115 + 1000001, "UTC"⟩

/-!
### Helper lemmas
-/

theorem mem_of_mem_uniqueByAux {α β : Type} [DecidableEq β] (key : α → β)
    (l : List α) :
    ∀ (seen : List β) (a : α), a ∈ uniqueByAux key seen l → a ∈ l := by
  induction l with
  | nil =>
    intro seen a ha
    simp [uniqueByAux] at ha
  | cons x xs ih =>
    intro seen a ha
    simp only [uniqueByAux] at ha
    by_cases h : key x ∈ seen
    · rw [if_pos h] at ha
      exact List.mem_cons_of_mem _ (ih _ _ ha)
    · rw [if_neg h] at ha
      rcases List.mem_cons.mp ha with rfl | ha
      · exact List.mem_cons_self _ _
      · exact List.mem_cons_of_mem _ (ih _ _ ha)

theorem key_not_seen_of_mem_uniqueByAux {α β : Type} [DecidableEq β] (key : α → β)
    (l : List α) :
    ∀ (seen : List β) (a : α), a ∈ uniqueByAux key seen l → key a ∉ seen := by
  induction l with
  | nil =>
    intro seen a ha
    simp [uniqueByAux] at ha
  | cons x xs ih =>
    intro seen a ha
    simp only [uniqueByAux] at ha
    by_cases h : key x ∈ seen
    · rw [if_pos h] at ha
      exact ih _ _ ha
    · rw [if_neg h] at ha
      rcases List.mem_cons.mp ha with rfl | ha
      · exact h
      · intro hs
        exact ih _ _ ha (List.mem_cons_of_mem _ hs)

theorem nodup_map_key_uniqueByAux {α β : Type} [DecidableEq β] (key : α → β)
    (l : List α) :
    ∀ (seen : List β), ((uniqueByAux key seen l).map key).Nodup := by
  induction l with
  | nil =>
    intro seen
    simp [uniqueByAux]
  | cons x xs ih =>
    intro seen
    simp only [uniqueByAux]
    by_cases h : key x ∈ seen
    · rw [if_pos h]
      exact ih _
    · rw [if_neg h]
      refine List.nodup_cons.mpr ⟨?_, ih _⟩
      intro hmem
      rcases List.mem_map.mp hmem with ⟨a, ha, hk⟩
      exact key_not_seen_of_mem_uniqueByAux key _ _ _ ha (hk ▸ List.mem_cons_self _ _)

/-- In a list sorted ascending by delta, the first occurrence kept for each
nick has the smallest delta among all entries with that nick. -/
theorem uniqueByAux_sorted_min (l : List Entry) :
    ∀ (seen : List String), List.Pairwise entryLe l →
      ∀ e ∈ uniqueByAux entryNick seen l, ∀ e' ∈ l,
        entryNick e' = entryNick e → entryDelta e ≤ entryDelta e' := by
  induction l with
  | nil =>
    intro seen _ e he
    simp [uniqueByAux] at he
  | cons x xs ih =>
    intro seen hs e he e' he' hk
    rcases List.pairwise_cons.mp hs with ⟨hx, hxs⟩
    simp only [uniqueByAux] at he
    by_cases h : entryNick x ∈ seen
    · rw [if_pos h] at he
      rcases List.mem_cons.mp he' with rfl | he'
      · exact absurd (hk ▸ h) (key_not_seen_of_mem_uniqueByAux entryNick _ _ _ he)
      · exact ih _ hxs e he e' he' hk
    · rw [if_neg h] at he
      rcases List.mem_cons.mp he with rfl | he
      · rcases List.mem_cons.mp he' with rfl | he'
        · exact le_refl _
        · exact hx _ he'
      · have hne : entryNick e ≠ entryNick x := by
          intro hcontra
          exact key_not_seen_of_mem_uniqueByAux entryNick _ _ _ he
            (List.mem_cons.mpr (Or.inl hcontra))
        rcases List.mem_cons.mp he' with rfl | he'
        · exact absurd hk hne.symm
        · exact ih _ hxs e he e' he' hk

/-- Inverting a successful day qualification: the kept entry is for that
day, carries exactly one `(delta, nick)` pair, and its delta lies in
`(0, CUTOFF_US]`. -/
theorem dayEntry_some (day : NaiveDate) (g : List FirstResult) (e : Entry)
    (h : dayEntry day g = some e) :
    e.1 = day ∧ e.2.length = 1 ∧ 0 < entryDelta e ∧ entryDelta e ≤ CUTOFF_US := by
  unfold dayEntry at h
  rcases htake : ((g.filterMap fun r => (delta day r).toOption).insertionSort deltaLe).take 1 with
    _ | ⟨⟨micros, nick⟩, rest⟩
  · rw [htake] at h
    cases h
  · rw [htake] at h
    have hlen : (((g.filterMap fun r =>
        (delta day r).toOption).insertionSort deltaLe).take 1).length ≤ 1 :=
      List.length_take_le 1 _
    rw [htake] at hlen
    have hrest : rest = [] := by
      cases rest with
      | nil => rfl
      | cons a as => simp at hlen
    subst hrest
    have hif : (if 0 < micros ∧ micros ≤ CUTOFF_US then
        some (day, [(micros, nick)]) else none) = some e := h
    by_cases hc : 0 < micros ∧ micros ≤ CUTOFF_US
    · rw [if_pos hc] at hif
      injection hif with heq
      subst heq
      exact ⟨rfl, rfl, hc.1, hc.2⟩
    · rw [if_neg hc] at hif
      cases hif

theorem mem_rankList (rs : List FirstResult) (e : Entry) (he : e ∈ rankList rs) :
    ∃ g ∈ chunkBy localDate rs, dayEntry g.1 g.2 = some e := by
  unfold rankList at he
  exact List.mem_filterMap.mp he

/-- Every entry of the ranked output is a qualifying day entry: it occurs
in `rankList`, its inner list is a singleton, and its delta lies in
`(0, CUTOFF_US]`. -/
theorem mem_rankOk (rs : List FirstResult) (m : Nat) (e : Entry)
    (he : e ∈ rankOk rs m) :
    e ∈ rankList rs ∧ e.2.length = 1 ∧ 0 < entryDelta e ∧ entryDelta e ≤ CUTOFF_US := by
  unfold rankOk uniqueBy at he
  have h1 := List.take_subset _ _ he
  have h2 := mem_of_mem_uniqueByAux entryNick _ _ _ h1
  have h3 : e ∈ rankList rs :=
    (List.perm_insertionSort entryLe (rankList rs)).mem_iff.mp h2
  rcases mem_rankList rs e h3 with ⟨g, _, hsome⟩
  rcases dayEntry_some _ _ _ hsome with ⟨_, hlen, hpos, hcut⟩
  exact ⟨h3, hlen, hpos, hcut⟩

/-- `rank` returns in the `Ok` branch exactly when no timezone is bad, and
then its payload is `rankOk`. -/
theorem rank_ok_inv (rs : List FirstResult) (m : Nat) (out : List Entry)
    (h : rank rs m = .result (.ok out)) : out = rankOk rs m := by
  unfold rank at h
  split at h
  · cases h
  · injection h with h'
    injection h' with h''
    exact h''.symm

theorem rank_never_err (rs : List FirstResult) (m : Nat) (msg : String) :
    rank rs m ≠ .result (.error msg) := by
  unfold rank
  split
  · intro h
    cases h
  · intro h
    injection h with h'
    cases h'

/-- main's print loop succeeds on any list of entries with nonempty inner
lists, printing one line per entry. -/
theorem printLoop_total (l : List Entry) (hl : ∀ e ∈ l, e.2 ≠ []) (n : Nat) :
    (printLoop n l).2 = none ∧ (printLoop n l).1.length = l.length := by
  induction l generalizing n with
  | nil => simp [printLoop]
  | cons e es ih =>
    have he : e.2 ≠ [] := hl e (List.mem_cons_self _ _)
    rcases h2 : e.2 with _ | ⟨⟨micros, nick⟩, rest⟩
    · exact absurd h2 he
    · have ihs := ih (fun e' he' => hl e' (List.mem_cons_of_mem _ he')) (n + 1)
      simp only [printLoop, fmtEntry, h2, List.head?]
      simp [ihs.1, ihs.2]

/-!
### Claim theorems
-/

/-- C1: for a day group whose member deltas are +500,000 µs, +50,000 µs and
−10,000 µs, the spec (and rank's own doc comment) says the +50,000 µs entry
is the day's qualifying candidate — the smallest positive delta.  The code
instead selects the single group minimum (−10,000), fails the `> 0` check
on it, and drops the whole day: the ranking comes back empty. -/
theorem C1_code_drops_day :
    delta ⟨1970, 1, 15⟩ submAlice = .ok (500000, "alice") ∧
    delta ⟨1970, 1, 15⟩ submBob = .ok (50000, "bob") ∧
    delta ⟨1970, 1, 15⟩ submCarol = .ok (-10000, "carol") ∧
    rank [submAlice, submBob, submCarol] MAX_RESULTS = .result (.ok []) :=
  ⟨rfl, rfl, rfl, rfl⟩

/-- C2: a batch holding one record with an unparseable timezone makes the
grouping key closure's `.expect(...)` panic, aborting the whole batch —
even though `delta` itself would have failed that record recoverably with
"Bad timezone".  The spec's promise that a bad timezone is skipped
per-record and never aborts the batch does not hold. -/
theorem C2_bad_timezone_panics :
    rank [submBob, submBadTz] MAX_RESULTS
      = .panicked "Timezone should be in Continent/Capital format" ∧
    delta ⟨1970, 1, 15⟩ submBadTz = .error "Bad timezone" :=
  ⟨rfl, rfl⟩

/-- C3 counterexample: the store returns one matching record (carol, who
guessed before the opening), filtering/ranking yields zero leaderboard
entries, yet `main` prints the header and returns `Ok(())` — exit status
zero — instead of the claimed non-zero status with a user message. -/
theorem C3_empty_ranking_exits_zero :
    rankOk [submCarol] MAX_RESULTS = [] ∧
    mainRun (some "#c") none 0 (fun _ => some [submCarol]) = .ok [HEADER] :=
  ⟨rfl, rfl⟩

/-- C3 amended: a missing channel or an empty/failed store selection exits
non-zero with a message; but whenever the selection succeeds (and every
timezone parses), `main` exits zero and prints the header plus one line per
ranked entry — including the empty-ranking case, where it prints only the
header and still exits zero. -/
theorem C3_amended_exit_behavior (channel : String) (periodArg : Option String)
    (now : Int) (select : (FirstResult → Bool) → Option (List FirstResult))
    (results : List FirstResult)
    (hsel : select (mainPred channel (mainSpan periodArg now)) = some results)
    (htz : ∀ r ∈ results, (parseTz r.timezone).isSome) :
    mainRun (some channel) periodArg now select
      = .ok (HEADER :: (printLoop 0 (rankOk results MAX_RESULTS)).1) ∧
    (printLoop 0 (rankOk results MAX_RESULTS)).1.length
      = (rankOk results MAX_RESULTS).length ∧
    mainRun none periodArg now select
      = .errored "A channel must be provided" ["A channel must be provided"] ∧
    mainRun (some channel) periodArg now (fun _ => none)
      = .errored "No results found" ["No results found"] := by
  have hrank : rank results MAX_RESULTS = .result (.ok (rankOk results MAX_RESULTS)) := by
    unfold rank
    rw [if_neg]
    intro hx
    rcases List.any_eq_true.mp hx with ⟨r, hr, hbad⟩
    rw [Option.isNone_iff_eq_none] at hbad
    have h2 := htz r hr
    rw [hbad] at h2
    cases h2
  have hloop := printLoop_total (rankOk results MAX_RESULTS)
    (fun e he => by
      have hlen := (mem_rankOk results MAX_RESULTS e he).2.1
      intro hnil
      rw [hnil] at hlen
      cases hlen) 0
  refine ⟨?_, hloop.2, rfl, rfl⟩
  show (match select (mainPred channel (mainSpan periodArg now)) with
    | none => MainOutcome.errored "No results found" ["No results found"]
    | some first_results =>
      match rank first_results MAX_RESULTS with
      | .panicked m => .panicked m []
      | .result (.error e) => .errored e []
      | .result (.ok rk) =>
        match (printLoop 0 rk).2 with
        | some m => .errored m (HEADER :: (printLoop 0 rk).1)
        | none => .ok (HEADER :: (printLoop 0 rk).1)) = _
  rw [hsel]
  dsimp only
  rw [hrank]
  dsimp only
  rw [hloop.1]

/-- C3 amended, witnessed at a concrete store and arguments. -/
theorem C3_amended_exit_behavior_witness :
    mainRun (some "#c") none 0 (fun _ => some [submDave1])
      = .ok (HEADER :: (printLoop 0 (rankOk [submDave1] MAX_RESULTS)).1) ∧
    (printLoop 0 (rankOk [submDave1] MAX_RESULTS)).1.length
      = (rankOk [submDave1] MAX_RESULTS).length ∧
    mainRun none none 0 (fun _ => some [submDave1])
      = .errored "A channel must be provided" ["A channel must be provided"] ∧
    mainRun (some "#c") none 0 (fun _ => none)
      = .errored "No results found" ["No results found"] :=
  C3_amended_exit_behavior "#c" none 0 (fun _ => some [submDave1]) [submDave1] rfl
    (by decide)

/-- C4 counterexample: at 1970-01-02 01:02:03 UTC, the `day` period start is
1970-01-02 00:02:03 — the hour is stripped but minutes and seconds survive,
so the result is not midnight of the current UTC day. -/
theorem C4_day_start_not_midnight :
    start_date 90123000000 Period.Day = 86523000000 ∧
    utcMidnight 90123000000 = 86400000000 ∧
    start_date 90123000000 Period.Day ≠ utcMidnight 90123000000 := by
  refine ⟨rfl, rfl, ?_⟩
  decide

/-- C4 amended: for the `day` period the resolver subtracts exactly the
current UTC hour count: the result has hour 0 and lies on the current UTC
date, but keeps the current minute, second and microsecond rather than
being midnight. -/
theorem C4_amended_day_start (now : Int) :
    start_date now Period.Day = now - (hourOf now : Int) * usPerHour ∧
    hourOf (start_date now Period.Day) = 0 ∧
    dateOf (start_date now Period.Day) = dateOf now ∧
    (start_date now Period.Day) % usPerHour = now % usPerHour := by
  refine ⟨rfl, ?_, ?_, ?_⟩
  · show hourOf (now - (hourOf now : Int) * usPerHour) = 0
    simp only [hourOf, usPerDay, usPerHour]
    omega
  · show dateOf (now - (hourOf now : Int) * usPerHour) = dateOf now
    unfold dateOf
    congr 1
    simp only [hourOf, usPerDay, usPerHour]
    omega
  · show (now - (hourOf now : Int) * usPerHour) % usPerHour = now % usPerHour
    simp only [hourOf, usPerDay, usPerHour]
    omega

/-- The `Period::Week` day-count table is the weekday index plus one. -/
theorem weekDays_eq_succ (i : Nat) (h : i < 7) : weekDays i = i + 1 := by
  interval_cases i <;> rfl

/-- C5 counterexample: 1970-01-05 12:00 UTC is a Monday (weekday index 0),
where the claim says the resolver goes back 0 days; the code instead goes
back 1 day, landing on Sunday 1970-01-04. -/
theorem C5_week_goes_back_to_sunday :
    weekdayIdx 388800000000 = 0 ∧
    start_date 388800000000 Period.Week = 302400000000 ∧
    start_date 388800000000 Period.Week ≠ 388800000000 - 0 * usPerDay ∧
    dateOf 302400000000 = ⟨1970, 1, 4⟩ ∧
    weekdayIdx 302400000000 = 6 := by
  refine ⟨rfl, rfl, ?_, rfl, rfl⟩
  decide

/-- C5 amended: for the `week` period the resolver goes back weekday-index
plus one days (Mon→1, Tue→2, …, Sun→7), always landing on a Sunday — the
most recent Sunday strictly before the current day — not on the most
recent Monday. -/
theorem C5_amended_week_start (now : Int) :
    start_date now Period.Week = now - ((weekdayIdx now : Int) + 1) * usPerDay ∧
    weekdayIdx (start_date now Period.Week) = 6 := by
  have h7 : weekdayIdx now < 7 := by
    simp only [weekdayIdx, usPerDay]
    omega
  have hw : weekDays (weekdayIdx now) = weekdayIdx now + 1 := weekDays_eq_succ _ h7
  constructor
  · show now - (weekDays (weekdayIdx now) : Int) * usPerDay = _
    rw [hw]
    push_cast
    ring
  · show weekdayIdx (now - (weekDays (weekdayIdx now) : Int) * usPerDay) = 6
    rw [hw]
    simp only [weekdayIdx, usPerDay]
    omega

/-- C6 counterexample: dave qualifies on 1970-01-16 with best delta
80,000 µs — inside `(0, CUTOFF_US]` — yet that day is absent from the
ranking output, because dave's better 1970-01-15 entry wins the per-player
dedup.  "A day appears in the output iff its best delta is in the window"
fails in the "if" direction. -/
theorem C6_qualifying_day_dropped_by_dedup :
    dayEntry ⟨1970, 1, 16⟩ [submDave2] = some (⟨1970, 1, 16⟩, [(80000, "dave")]) ∧
    rank [submDave1, submDave2] MAX_RESULTS
      = .result (.ok [(⟨1970, 1, 15⟩, [(20000, "dave")])]) ∧
    (⟨1970, 1, 16⟩ : NaiveDate)
      ∉ (rankOk [submDave1, submDave2] MAX_RESULTS).map (fun e => e.1) := by
  refine ⟨rfl, rfl, ?_⟩
  decide

/-- C6 amended: every entry of the ranking output has its delta in
`(0, CUTOFF_US]`, and the per-day qualification boundary is inclusive at
exactly 1,000,000 µs and exclusive at 1,000,001 µs; but a day whose best
delta is in the window can still be missing from the output, dropped by
the per-player dedup or the truncation to `max_results`. -/
theorem C6_amended_cutoff_window (rs : List FirstResult) (m : Nat)
    (out : List Entry) (h : rank rs m = .result (.ok out)) :
    (∀ e ∈ out, 0 < entryDelta e ∧ entryDelta e ≤ CUTOFF_US) ∧
    dayEntry ⟨1970, 1, 15⟩ [submBoundaryIn]
      = some (⟨1970, 1, 15⟩, [(1000000, "xena")]) ∧
    dayEntry ⟨1970, 1, 15⟩ [submBoundaryOut] = none := by
  refine ⟨?_, rfl, rfl⟩
  intro e he
  have hm := mem_rankOk rs m e (rank_ok_inv rs m out h ▸ he)
  exact ⟨hm.2.2.1, hm.2.2.2⟩

/-- C6 amended, witnessed at a concrete ranking. -/
theorem C6_amended_cutoff_window_witness :
    (0 < entryDelta (⟨1970, 1, 15⟩, [((20000 : Int), "dave")]) ∧
      entryDelta (⟨1970, 1, 15⟩, [((20000 : Int), "dave")]) ≤ CUTOFF_US) ∧
    dayEntry ⟨1970, 1, 15⟩ [submBoundaryIn]
      = some (⟨1970, 1, 15⟩, [(1000000, "xena")]) ∧
    dayEntry ⟨1970, 1, 15⟩ [submBoundaryOut] = none := by
  have h := C6_amended_cutoff_window [submDave1] MAX_RESULTS
    [(⟨1970, 1, 15⟩, [(20000, "dave")])] rfl
  exact ⟨h.1 _ (List.mem_singleton.mpr rfl), h.2.1, h.2.2⟩

/-- C7: in the ranking output each nick occurs at most once, and any entry
kept for a nick has a delta no larger than every qualifying day entry of
that same nick (the dedup after the ascending stable sort keeps each
player's best day). -/
theorem C7_dedup_keeps_best (rs : List FirstResult) (m : Nat)
    (out : List Entry) (h : rank rs m = .result (.ok out)) :
    (out.map entryNick).Nodup ∧
    ∀ e ∈ out, ∀ e' ∈ rankList rs, entryNick e' = entryNick e →
      entryDelta e ≤ entryDelta e' := by
  have hout : out = rankOk rs m := rank_ok_inv rs m out h
  subst hout
  constructor
  · unfold rankOk uniqueBy
    have hnd := nodup_map_key_uniqueByAux entryNick
      ((rankList rs).insertionSort entryLe) ([] : List String)
    exact List.Nodup.sublist ((List.take_sublist _ _).map _) hnd
  · intro e he e' he' hk
    unfold rankOk uniqueBy at he
    have h1 := List.take_subset _ _ he
    have hsorted : List.Pairwise entryLe ((rankList rs).insertionSort entryLe) :=
      List.sorted_insertionSort entryLe (rankList rs)
    have he'' : e' ∈ (rankList rs).insertionSort entryLe :=
      (List.perm_insertionSort entryLe (rankList rs)).mem_iff.mpr he'
    exact uniqueByAux_sorted_min _ [] hsorted e h1 e' he'' hk

/-- C7, witnessed: dave qualifies on two days with deltas 20,000 µs and
80,000 µs; the output entry kept for dave is the 20,000 µs one. -/
theorem C7_dedup_keeps_best_witness :
    (([(⟨1970, 1, 15⟩, [((20000 : Int), "dave")])] : List Entry).map entryNick).Nodup ∧
    entryDelta (⟨1970, 1, 15⟩, [((20000 : Int), "dave")])
      ≤ entryDelta (⟨1970, 1, 16⟩, [((80000 : Int), "dave")]) := by
  have h := C7_dedup_keeps_best [submDave1, submDave2] MAX_RESULTS
    [(⟨1970, 1, 15⟩, [(20000, "dave")])] rfl
  refine ⟨h.1, h.2 _ (List.mem_singleton.mpr rfl) _ ?_ rfl⟩
  decide

/-- C8: the opening-time reconstruction is a pure function of the
day-of-month seed — evaluating it twice gives identical pairs — and the
hour lies in `[RAND_OPEN_HOUR_LO, RAND_OPEN_HOUR_HI) = [5, 12)`, the
minute in `[RAND_OPEN_MIN_LO, RAND_OPEN_MIN_HI) = [0, 59)`, each drawn
from an independent generator seeded with `d`. -/
theorem C8_opening_reconstruction_deterministic (d : Nat) :
    (open_hour d, open_min d) = (open_hour d, open_min d) ∧
    openingFor ⟨1970, 1, d⟩ = (open_hour d, open_min d) ∧
    RAND_OPEN_HOUR_LO ≤ open_hour d ∧ open_hour d < RAND_OPEN_HOUR_HI ∧
    RAND_OPEN_MIN_LO ≤ open_min d ∧ open_min d < RAND_OPEN_MIN_HI := by
  have hh : open_hour d = 5 + d % 7 := by
    simp only [open_hour, stdRngRange, RAND_OPEN_HOUR_LO, RAND_OPEN_HOUR_HI]
    norm_num
  have hm : open_min d = d % 59 := by
    simp only [open_min, stdRngRange, RAND_OPEN_MIN_LO, RAND_OPEN_MIN_HI]
    norm_num
  refine ⟨rfl, rfl, ?_, ?_, ?_, ?_⟩ <;>
    simp only [hh, hm, RAND_OPEN_HOUR_LO, RAND_OPEN_HOUR_HI, RAND_OPEN_MIN_LO,
      RAND_OPEN_MIN_HI] <;>
    omega

/-- C9 counterexample: on a batch holding a record with an unparseable
timezone, `rank` does not return at all — it panics — so "rank returns
`Ok` for every input slice" fails. -/
theorem C9_rank_panics_on_bad_timezone :
    rank [submBadTz] MAX_RESULTS
      = .panicked "Timezone should be in Continent/Capital format" := rfl

/-- C9 amended: `rank` never returns `Err`, and whenever it does return
(no timezone panic), every entry of its `Ok` payload carries exactly one
`(delta, nick)` pair — so main's "Could not get data" branch is
unreachable on rank's own output. -/
theorem C9_amended_rank_total (rs : List FirstResult) (m : Nat) (msg : String)
    (out : List Entry) :
    rank rs m ≠ .result (.error msg) ∧
    (rank rs m = .result (.ok out) → ∀ e ∈ out, e.2.length = 1) := by
  refine ⟨rank_never_err rs m msg, fun h e he => ?_⟩
  exact (mem_rankOk rs m e (rank_ok_inv rs m out h ▸ he)).2.1

/-- C9 amended, witnessed at a concrete batch. -/
theorem C9_amended_rank_total_witness :
    rank [submDave1] MAX_RESULTS ≠ .result (.error "boom") ∧
    (((⟨1970, 1, 15⟩ : NaiveDate), [((20000 : Int), "dave")]) : Entry).2.length = 1 := by
  have h := C9_amended_rank_total [submDave1] MAX_RESULTS "boom"
    [(⟨1970, 1, 15⟩, [(20000, "dave")])]
  exact ⟨h.1, h.2 rfl _ (List.mem_singleton.mpr rfl)⟩

/-- C10: the reconstructed opening depends only on the day-of-month of the
target date — two dates sharing a day-of-month give the same opening pair,
and `delta` itself returns identical results for them on any record. -/
theorem C10_opening_depends_only_on_day_of_month (d d' : NaiveDate)
    (r : FirstResult) (h : d.day = d'.day) :
    openingFor d = openingFor d' ∧ delta d r = delta d' r := by
  have ho : openingFor d = openingFor d' := by
    unfold openingFor
    rw [h]
  refine ⟨ho, ?_⟩
  unfold delta
  rw [ho]

/-- C10, witnessed on January 5 1970 and February 5 2024. -/
theorem C10_opening_witness :
    openingFor ⟨1970, 1, 5⟩ = openingFor ⟨2024, 2, 5⟩ ∧
    delta ⟨1970, 1, 5⟩ submBob = delta ⟨2024, 2, 5⟩ submBob :=
  C10_opening_depends_only_on_day_of_month ⟨1970, 1, 5⟩ ⟨2024, 2, 5⟩ submBob rfl

end FirstTop
